import Mathlib

/-!
Verification development for the World Bank dashboard script
(`src/dashboard.py`).  The script fetches three development indicators,
caches the raw response as a pickle blob, normalizes the table
(country shape detection, year extraction, column renaming), and serves
two linked charts whose update callback filters the table by the
country codes attached to click events.

The embedding below translates the module-level pipeline and the
`update_figures` callback into pure Lean functions.  Numeric indicator
values are modelled as `Option ℚ` (missing = `none`, mirroring NaN in
the dataframe); fallible steps return `Except PipelineError`.
-/

namespace Dashboard

/-- The `country` field of a raw row as delivered by `wbdata`: either a
structured dict with optional `id`/`value` entries, or a flat string.
(`src/dashboard.py` lines 235-240 branch on `isinstance(..., dict)`.) -/
inductive CountryVal where
  | cdict (id value : Option String)
  | cstr (s : String)
deriving DecidableEq

/-- A cell of the normalized `iso2` / `country_name` columns.  The dict
branch produces `x.get(...)` results (a string or Python `None`); the
flat branch copies the `country` cell verbatim, so a dict can also land
here unchanged. -/
inductive CellVal where
  | vnone
  | vstr (s : String)
  | vdict (id value : Option String)
deriving DecidableEq

/-- Verbatim copy of a `country` cell into an output cell, as done by
`df['iso2'] = df['country']` in the flat-string branch (lines 239-240). -/
def CountryVal.toCell : CountryVal → CellVal
  | .cstr s => .vstr s
  | .cdict i v => .vdict i v

/-- Result of `x.get('id')` / `x.get('value')` as a cell: Python `None`
becomes `vnone`. -/
def optToCell : Option String → CellVal
  | none => .vnone
  | some s => .vstr s

/-- One row of the raw table returned by `wbdata.get_dataframe` after
`reset_index()`: a `country` cell, a `date` string, and the data columns
as an association list from column key to (possibly missing) value. -/
structure RawRow where
  country : CountryVal
  date : String
  data : List (String × Option ℚ)
deriving DecidableEq

/-- One row of the normalized observation table: `iso2` (the country
code), `country_name`, the parsed integer `Year`, and the (renamed)
data columns. -/
structure ObsRow where
  iso2 : CellVal
  country_name : CellVal
  year : Nat
  data : List (String × Option ℚ)
deriving DecidableEq

/-- Errors the Python pipeline can raise: `KeyError` from `df.loc[0, ...]`
on an empty frame, `AttributeError` from `x.get` on a non-dict,
a `pd.to_datetime` parse failure, and `IndexError` from
`pt['customdata'][0]` on a point with no custom data. -/
inductive PipelineError where
  | keyError
  | attributeError
  | parseError
  | indexError
deriving DecidableEq

/-- `start_year = 2000` (line 213). -/
def start_year : Nat := 2000

/-- `end_year = 2020` (line 213). -/
def end_year : Nat := 2020

/-- The indicator mapping from World Bank codes to display labels
(lines 217-221). -/
def indicators : List (String × String) :=
  [ ( "NY.GDP.PCAP.CD", "GDP per capita (current US$)" ),
    ( "SP.DYN.LE00.IN", "Life expectancy at birth (years)" ),
    ( "SH.H2O.SMDW.ZS", "Access to clean water (% pop)" ) ]

/-- `data_date = (datetime(2000,1,1), datetime(2020,1,1))` (line 214),
modelled as two (year, month, day) triples. -/
def data_date : (Nat × Nat × Nat) × (Nat × Nat × Nat) :=
  ((start_year, 1, 1), (end_year, 1, 1))

/-- A logical network request to the World Bank API: the indicator
mapping and the inclusive date range (line 229). -/
structure Request where
  indicators : List (String × String)
  date : (Nat × Nat × Nat) × (Nat × Nat × Nat)
deriving DecidableEq

/-- The single request `wbdata.get_dataframe(indicators, date=data_date)`
issued on a cache miss (line 229). -/
def theRequest : Request := ⟨indicators, data_date⟩

/-- The cache-or-fetch step (lines 224-230).  The cache file is modelled
as `Option (List RawRow)` (`none` = file absent); `upstream` maps a
request to the table the API would return.  Returns the loaded raw
table, the cache state afterwards, and the list of network requests
issued.  On a hit the pickle is deserialized and returned with no
request; on a miss one request is issued and the received table is
persisted verbatim before being returned. -/
def load (upstream : Request → List RawRow) (cache : Option (List RawRow)) :
    List RawRow × Option (List RawRow) × List Request :=
  match cache with
  | some blob => (blob, some blob, [])
  | none => (upstream theRequest, some (upstream theRequest), [theRequest])

/-- Digits-to-number conversion on a character list: `none` when the
list is empty or contains a non-digit. -/
def digitsToNat : List Char → Option Nat
  | [] => none
  | cs =>
    if cs.all Char.isDigit then
      some (cs.foldl (fun n c => 10 * n + (c.toNat - 48)) 0)
    else none

/-- Model of `pd.to_datetime(s).dt.year` on the date strings `wbdata`
delivers (a year string such as "2000", or an ISO date "2000-01-01"):
the leading component before any dash, parsed as a number; `none` when
that prefix is not a number (where `to_datetime` would raise). -/
def parseYear (s : String) : Option Nat :=
  digitsToNat (s.toList.takeWhile (fun c => c != '-'))

/-- `df.rename(columns=indicators)` on a single column key (line 244):
keys present in the mapping become their labels, others are kept. -/
def renameKey (k : String) : String :=
  match indicators.lookup k with
  | some label => label
  | none => k

/-- Column renaming applied to a row's data columns. -/
def renameData (d : List (String × Option ℚ)) : List (String × Option ℚ) :=
  d.map (fun kv => (renameKey kv.1, kv.2))

/-- Error-propagating map over a list, mirroring a pandas columnwise
operation that raises on the first bad element. -/
def mapExcept {α β E : Type} (f : α → Except E β) : List α → Except E (List β)
  | [] => .ok []
  | x :: xs =>
    match f x with
    | .error e => .error e
    | .ok y =>
      match mapExcept f xs with
      | .error e => .error e
      | .ok ys => .ok (y :: ys)

/-- Per-row normalization in the dict branch (lines 236-237, 242, 244):
`iso2 = country.get('id')`, `country_name = country.get('value')`, the
year parsed from `date`, and data columns renamed.  A non-dict country
cell raises `AttributeError` (`'str' object has no attribute 'get'`). -/
def normalizeRowDict (r : RawRow) : Except PipelineError ObsRow :=
  match r.country with
  | .cdict i v =>
    match parseYear r.date with
    | some y => .ok ⟨optToCell i, optToCell v, y, renameData r.data⟩
    | none => .error .parseError
  | .cstr _ => .error .attributeError

/-- Per-row normalization in the flat branch (lines 239-240, 242, 244):
`iso2` and `country_name` are verbatim copies of the `country` cell. -/
def normalizeRowStr (r : RawRow) : Except PipelineError ObsRow :=
  match parseYear r.date with
  | some y => .ok ⟨r.country.toCell, r.country.toCell, y, renameData r.data⟩
  | none => .error .parseError

/-- The normalization stage (lines 233-244): probe the type of row 0's
`country` cell (`KeyError` on an empty frame), then apply the chosen
branch to every row. -/
def normalize (raw : List RawRow) : Except PipelineError (List ObsRow) :=
  match raw with
  | [] => .error .keyError
  | r0 :: _ =>
    match r0.country with
    | .cdict _ _ => mapExcept normalizeRowDict raw
    | .cstr _ => mapExcept normalizeRowStr raw

instance {E α : Type} [DecidableEq E] [DecidableEq α] : DecidableEq (Except E α) := fun a b =>
  match a, b with
  | .ok x, .ok y =>
    if h : x = y then .isTrue (by rw [h]) else .isFalse (by intro hc; cases hc; exact h rfl)
  | .error e, .error f =>
    if h : e = f then .isTrue (by rw [h]) else .isFalse (by intro hc; cases hc; exact h rfl)
  | .ok _, .error _ => .isFalse (by intro hc; cases hc)
  | .error _, .ok _ => .isFalse (by intro hc; cases hc)

/-- Greater-than on possibly-missing values, matching how
`sort_values(..., ascending=False)` orders cells: present values compare
numerically, and any present value sorts strictly above a missing one
(pandas places NaN rows last with the default `na_position='last'`). -/
def optGt : Option ℚ → Option ℚ → Bool
  | some a, some b => decide (b < a)
  | some _, none => true
  | none, _ => false

/-- Non-strict companion of `optGt`: `optGe a b` holds when `b` is not
strictly above `a` in the descending order. -/
def optGe (a b : Option ℚ) : Bool := !optGt b a

/-- One clicked point of a Plotly click payload; `customdata` carries the
values attached through `custom_data=['iso2', 'country_name']`. -/
structure Point where
  customdata : List CellVal
deriving DecidableEq

/-- A `clickData` payload: a dict with a `points` list.  An absent
payload is modelled as `Option Payload = none` (Dash passes `None`
before any click; a present payload dict is always truthy in Python,
even when its points list is empty). -/
structure Payload where
  points : List Point
deriving DecidableEq

/-- `[pt['customdata'][0] for pt in payload['points']]` (lines 271, 273):
the first custom-data entry of every clicked point; a point with an
empty custom-data list raises `IndexError`. -/
def extractSelection (p : Payload) : Except PipelineError (List CellVal) :=
  mapExcept
    (fun pt =>
      match pt.customdata with
      | [] => .error .indexError
      | c :: _ => .ok c)
    p.points

/-- The `if click_scatter: ... elif click_bar: ...` trigger choice
(lines 269-273): the scatter payload is consulted first and, when
present, the bar payload is never read; with both absent the selection
stays `[]`. -/
def pickSelection (click_scatter click_bar : Option Payload) :
    Except PipelineError (List CellVal) :=
  match click_scatter with
  | some p => extractSelection p
  | none =>
    match click_bar with
    | some p => extractSelection p
    | none => .ok []

/-- `if selected: dff = dff[dff['iso2'].isin(selected)]` (lines 274-275):
a non-empty selection restricts the table to rows whose `iso2` cell is
among the selected values; an empty selection leaves the table whole. -/
def applySelection (table : List ObsRow) (selected : List CellVal) :
    List ObsRow :=
  if selected.isEmpty then table
  else table.filter (fun r => selected.contains r.iso2)

/-- The label of the clean-water column after renaming. -/
def waterLabel : String := "Access to clean water (% pop)"

/-- Column access `row[label]` on the data columns: the stored value,
or missing when the key is absent. -/
def getCell (d : List (String × Option ℚ)) (k : String) : Option ℚ :=
  match d.lookup k with
  | some v => v
  | none => none

/-- One row of the frame handed to `px.bar`: the column projection
`latest[['country_name', 'Access to clean water (% pop)', 'iso2']]`
(line 296). -/
structure BarRow where
  country_name : CellVal
  water : Option ℚ
  iso2 : CellVal
deriving DecidableEq

/-- Project an observation row onto the bar-chart columns. -/
def toBarRow (r : ObsRow) : BarRow :=
  ⟨r.country_name, getCell r.data waterLabel, r.iso2⟩

/-- Insert a row into a descending-sorted list of bar rows.  Together
with `sortBars` this models `sort_values('Access to clean water (% pop)',
ascending=False)` (line 297): present values descending, missing values
after all present ones.  The source call uses the pandas default
`kind='quicksort'`, which fixes no tie order; this model commits to one
arbitrarily, and no theorem below relies on how ties are broken. -/
def insertBar (r : BarRow) : List BarRow → List BarRow
  | [] => [r]
  | x :: xs =>
    if optGt r.water x.water then r :: x :: xs
    else x :: insertBar r xs

/-- Sort bar rows descending by clean-water value (see `insertBar`). -/
def sortBars : List BarRow → List BarRow
  | [] => []
  | x :: xs => insertBar x (sortBars xs)

/-- The bar-chart data (lines 295-297): restrict to `Year == end_year`,
project the three columns, sort descending by clean-water value, and
`head(15)`. -/
def barData (dff : List ObsRow) : List BarRow :=
  (sortBars ((dff.filter (fun r => r.year == end_year)).map toBarRow)).take 15

/-- The `update_figures` callback (lines 267-308): pick the triggering
payload, extract the selection, filter the table, and build both chart
data sets.  The scatter figure is the declarative chart specification
over the filtered table itself; the bar figure is `barData` of it.
Chart rendering (`px.scatter` / `px.bar`) is an external collaborator
consuming these specifications. -/
def update_figures (table : List ObsRow) (click_scatter click_bar : Option Payload) :
    Except PipelineError (List ObsRow × List BarRow) :=
  match pickSelection click_scatter click_bar with
  | .error e => .error e
  | .ok selected =>
    .ok (applySelection table selected, barData (applySelection table selected))

/-- Descending bar-chart order between two bar rows: the left row's
clean-water value is not strictly below the right one's (missing values
rank below every present value). -/
def barOrd (x y : BarRow) : Prop := optGe x.water y.water = true

/-- The country-code cell the normalization stage assigns to a row with
`country` cell `c`, when the branch was chosen by the first row's
`country` cell `head`: `x.get('id')` in the dict branch, a verbatim copy
in the flat branch.  (The dict branch never reaches the `cstr` case of
`c`: it raises `AttributeError` there.) -/
def codeInBranch (head c : CountryVal) : CellVal :=
  match head with
  | .cdict _ _ =>
    match c with
    | .cdict i _ => optToCell i
    | .cstr s => .vstr s
  | .cstr _ => c.toCell

/-! ### Concrete example data for witnesses and counterexamples -/

/-- A small observation table with two countries in the end year. -/
def c4Ex : List ObsRow :=
  [ ⟨ .vstr "US", .vstr "United States", 2020, [(waterLabel, some 97)] ⟩,
    ⟨ .vstr "KE", .vstr "Kenya", 2020, [(waterLabel, some 62)] ⟩ ]

/-- A one-row raw table in the dict shape. -/
def c3Ex : List RawRow :=
  [ ⟨ .cdict (some "US") (some "United States"), "2000",
      [("SH.H2O.SMDW.ZS", some 97)] ⟩ ]

/-- The observation table `normalize` produces from `c3Ex`. -/
def c3ExOut : List ObsRow :=
  [ ⟨ .vstr "US", .vstr "United States", 2000, [(waterLabel, some 97)] ⟩ ]

/-- An observation table with 16 countries in the end year, exactly one
of which has a present clean-water value. -/
def c6Ex : List ObsRow :=
  (List.range 16).map
    (fun i =>
      ⟨ .vstr (Nat.repr i), .vnone, 2020,
        [(waterLabel, if i = 0 then some 50 else none)] ⟩)

/-- A one-row observation table for the click-payload scenarios. -/
def c8Ex : List ObsRow :=
  [ ⟨ .vstr "US", .vstr "United States", 2020, [(waterLabel, some 97)] ⟩ ]

/-- Head row of the C9 witness raw table. -/
def c9r0 : RawRow := ⟨ .cdict (some "US") (some "United States"), "2000", [] ⟩

/-- Second row of the C9 witness raw table. -/
def c9r1 : RawRow := ⟨ .cdict (some "KE") (some "Kenya"), "2000", [] ⟩

/-- The observation table `normalize` produces from `[c9r0, c9r1]`. -/
def c9Out : List ObsRow :=
  [ ⟨ .vstr "US", .vstr "United States", 2000, [] ⟩,
    ⟨ .vstr "KE", .vstr "Kenya", 2000, [] ⟩ ]

/-! ### Helper lemmas -/

theorem mapExcept_ok_forall₂ {α β E : Type} {f : α → Except E β} :
    ∀ {l : List α} {out : List β}, mapExcept f l = .ok out →
      List.Forall₂ (fun a b => f a = .ok b) l out := by
  intro l
  induction l with
  | nil =>
    intro out h
    simp only [mapExcept] at h
    cases h
    exact List.Forall₂.nil
  | cons x xs ih =>
    intro out h
    simp only [mapExcept] at h
    cases hfx : f x with
    | error e => rw [hfx] at h; exact absurd h (by simp)
    | ok y =>
      rw [hfx] at h
      cases hrest : mapExcept f xs with
      | error e => rw [hrest] at h; exact absurd h (by simp)
      | ok ys =>
        rw [hrest] at h
        simp only [Except.ok.injEq] at h
        cases h
        exact List.Forall₂.cons hfx (ih hrest)

theorem forall₂_mem_right {α β : Type} {R : α → β → Prop} :
    ∀ {l : List α} {o : List β}, List.Forall₂ R l o →
      ∀ b ∈ o, ∃ a, a ∈ l ∧ R a b := by
  intro l o h
  induction h with
  | nil => intro b hb; cases hb
  | cons hR _ ih =>
    intro b hb
    cases hb with
    | head => exact ⟨_, List.mem_cons_self _ _, hR⟩
    | tail _ hb2 =>
      obtain ⟨a, ha, hra⟩ := ih b hb2
      exact ⟨a, List.mem_cons_of_mem _ ha, hra⟩

theorem forall₂_pairwise {α β : Type} {R : α → β → Prop}
    {P : α → α → Prop} {Q : β → β → Prop} :
    ∀ {l : List α} {o : List β}, List.Forall₂ R l o → l.Pairwise P →
      (∀ a, a ∈ l → ∀ a2, a2 ∈ l → ∀ b b2, R a b → R a2 b2 → P a a2 → Q b b2) →
      o.Pairwise Q := by
  intro l o hf
  induction hf with
  | nil => intro _ _; exact List.Pairwise.nil
  | @cons a b l2 o2 hR htail ih =>
    intro hp hcomp
    rw [List.pairwise_cons] at hp
    obtain ⟨hhead, hptail⟩ := hp
    rw [List.pairwise_cons]
    constructor
    · intro b2 hb2
      obtain ⟨a2, ha2, hra2⟩ := forall₂_mem_right htail b2 hb2
      exact hcomp a (List.mem_cons_self _ _) a2 (List.mem_cons_of_mem _ ha2)
        b b2 hR hra2 (hhead a2 ha2)
    · exact ih hptail
        (fun x hx x2 hx2 =>
          hcomp x (List.mem_cons_of_mem _ hx) x2 (List.mem_cons_of_mem _ hx2))

theorem contains_iff_mem {α : Type} [DecidableEq α] {l : List α} {a : α} :
    l.contains a = true ↔ a ∈ l := by
  simp only [List.contains]
  exact List.elem_iff

theorem optGt_asymm {a b : Option ℚ} (h : optGt a b = true) : optGt b a = false := by
  cases a with
  | none => simp [optGt] at h
  | some av =>
    cases b with
    | none => rfl
    | some bv =>
      simp only [optGt, decide_eq_true_eq] at h
      simp only [optGt, decide_eq_false_iff_not]
      exact asymm h

theorem optGe_of_gt {a b : Option ℚ} (h : optGt a b = true) : optGe a b = true := by
  rw [optGe, optGt_asymm h]
  rfl

theorem optGe_of_not_gt {a b : Option ℚ} (h : optGt a b = false) :
    optGe b a = true := by
  rw [optGe, h]
  rfl

theorem optGe_trans {a b c : Option ℚ} (h1 : optGe a b = true)
    (h2 : optGe b c = true) : optGe a c = true := by
  cases c with
  | none => rfl
  | some cv =>
    cases b with
    | none => rw [optGe] at h2; simp [optGt] at h2
    | some bv =>
      cases a with
      | none => rw [optGe] at h1; simp [optGt] at h1
      | some av =>
        rw [optGe, optGt] at h1 h2 ⊢
        simp only [Bool.not_eq_true', decide_eq_false_iff_not] at h1 h2 ⊢
        exact fun hlt => absurd hlt (not_lt.mpr (le_trans (not_lt.mp h2) (not_lt.mp h1)))

theorem mem_insertBar {r y : BarRow} :
    ∀ {l : List BarRow}, y ∈ insertBar r l → y = r ∨ y ∈ l := by
  intro l
  induction l with
  | nil =>
    intro h
    rw [insertBar] at h
    rcases List.mem_singleton.mp h with h2
    exact Or.inl h2
  | cons x xs ih =>
    intro h
    rw [insertBar] at h
    split at h
    · cases h with
      | head => exact Or.inl rfl
      | tail _ h2 => exact Or.inr h2
    · cases h with
      | head => exact Or.inr (List.mem_cons_self _ _)
      | tail _ h2 =>
        rcases ih h2 with h3 | h3
        · exact Or.inl h3
        · exact Or.inr (List.mem_cons_of_mem _ h3)

theorem pairwise_insertBar {r : BarRow} :
    ∀ {l : List BarRow}, l.Pairwise barOrd → (insertBar r l).Pairwise barOrd := by
  intro l
  induction l with
  | nil => intro _; exact List.pairwise_singleton _ _
  | cons x xs ih =>
    intro hp
    rw [List.pairwise_cons] at hp
    obtain ⟨hx, hxs⟩ := hp
    rw [insertBar]
    split
    case isTrue hc =>
      rw [List.pairwise_cons]
      refine ⟨?_, List.pairwise_cons.mpr ⟨hx, hxs⟩⟩
      intro y hy
      cases hy with
      | head => exact optGe_of_gt hc
      | tail _ h2 => exact optGe_trans (optGe_of_gt hc) (hx y h2)
    case isFalse hc =>
      have hcf : optGt r.water x.water = false := Bool.eq_false_iff.mpr hc
      rw [List.pairwise_cons]
      refine ⟨?_, ih hxs⟩
      intro y hy
      rcases mem_insertBar hy with h3 | h3
      · subst h3; exact optGe_of_not_gt hcf
      · exact hx y h3

theorem pairwise_sortBars : ∀ l : List BarRow, (sortBars l).Pairwise barOrd := by
  intro l
  induction l with
  | nil => exact List.Pairwise.nil
  | cons x xs ih => rw [sortBars]; exact pairwise_insertBar ih

theorem length_insertBar (r : BarRow) :
    ∀ l : List BarRow, (insertBar r l).length = l.length + 1 := by
  intro l
  induction l with
  | nil => rfl
  | cons x xs ih =>
    rw [insertBar]
    split
    · rfl
    · rw [List.length_cons, ih, List.length_cons]

theorem length_sortBars : ∀ l : List BarRow, (sortBars l).length = l.length := by
  intro l
  induction l with
  | nil => rfl
  | cons x xs ih => rw [sortBars, length_insertBar, ih, List.length_cons]

theorem normalizeRowDict_ok {r : RawRow} {o : ObsRow}
    (h : normalizeRowDict r = .ok o) :
    ∃ i v, r.country = .cdict i v ∧ o.iso2 = optToCell i
      ∧ o.country_name = optToCell v
      ∧ some o.year = parseYear r.date ∧ o.data = renameData r.data := by
  cases hc : r.country with
  | cstr s => rw [normalizeRowDict, hc] at h; exact absurd h (by simp)
  | cdict i v =>
    rw [normalizeRowDict, hc] at h
    cases hy : parseYear r.date with
    | none => rw [hy] at h; exact absurd h (by simp)
    | some y =>
      rw [hy] at h
      simp only [Except.ok.injEq] at h
      subst h
      exact ⟨i, v, rfl, rfl, rfl, rfl, rfl⟩

theorem normalizeRowStr_ok {r : RawRow} {o : ObsRow}
    (h : normalizeRowStr r = .ok o) :
    o.iso2 = r.country.toCell ∧ o.country_name = r.country.toCell
      ∧ some o.year = parseYear r.date ∧ o.data = renameData r.data := by
  rw [normalizeRowStr] at h
  cases hy : parseYear r.date with
  | none => rw [hy] at h; exact absurd h (by simp)
  | some y =>
    rw [hy] at h
    simp only [Except.ok.injEq] at h
    subst h
    exact ⟨rfl, rfl, rfl, rfl⟩

/-! ### Claims -/

/-- Claim C1: for every upstream dataset, a cold load (fetch then
persist) followed by normalization yields the same observation table as
a warm load (deserialize the blob the cold run persisted) followed by
normalization: cache hit and cache miss are equivalent given identical
upstream data. -/
theorem c1 (upstream : Request → List RawRow) :
    normalize ((load upstream none).1)
      = normalize ((load upstream ((load upstream none).2.1)).1) := rfl

/-- Claim C2: `load` issues at most one network request; with a cache
file present it deserializes and returns the blob with no request and no
cache write; with no cache it issues exactly the one request for all
indicators over the inclusive date range, persists the received table
verbatim, and returns it. -/
theorem c2 :
    (∀ (upstream : Request → List RawRow) (cache : Option (List RawRow)),
        ((load upstream cache).2.2).length ≤ 1)
    ∧ (∀ (upstream : Request → List RawRow) (blob : List RawRow),
        load upstream (some blob) = (blob, some blob, []))
    ∧ (∀ upstream : Request → List RawRow,
        load upstream none
          = (upstream theRequest, some (upstream theRequest), [theRequest])) := by
  refine ⟨?_, fun _ _ => rfl, fun _ => rfl⟩
  intro u c
  cases c <;> simp [load]

/-- Claim C4: filtering by a non-empty selection `S` keeps exactly the
rows whose country code is in `S` (soundness and completeness), and
filtering by the full list of country codes present in the table is the
identity. -/
theorem c4 (table : List ObsRow) (S : List CellVal) (hS : S ≠ []) :
    (∀ r ∈ applySelection table S, r.iso2 ∈ S)
    ∧ (∀ r ∈ table, r.iso2 ∈ S → r ∈ applySelection table S)
    ∧ applySelection table (table.map (fun r => r.iso2)) = table := by
  have hne : S.isEmpty = false := by
    cases S with
    | nil => exact absurd rfl hS
    | cons a l => rfl
  refine ⟨?_, ?_, ?_⟩
  · intro r hr
    rw [applySelection, hne] at hr
    simp only [Bool.false_eq_true, if_false] at hr
    exact contains_iff_mem.mp (List.mem_filter.mp hr).2
  · intro r hr hmem
    rw [applySelection, hne]
    simp only [Bool.false_eq_true, if_false]
    exact List.mem_filter.mpr ⟨hr, contains_iff_mem.mpr hmem⟩
  · cases table with
    | nil => rfl
    | cons r0 rest =>
      rw [applySelection]
      simp only [List.map_cons, List.isEmpty_cons, Bool.false_eq_true, if_false]
      rw [List.filter_eq_self]
      intro r hr
      exact contains_iff_mem.mpr (List.mem_map_of_mem (fun x => x.iso2) hr)

/-- Witness for C4 at a concrete table and selection. -/
theorem c4_witness :
    ([CellVal.vstr "US"] ≠ [])
    ∧ ((∀ r ∈ applySelection c4Ex [CellVal.vstr "US"], r.iso2 ∈ [CellVal.vstr "US"])
      ∧ (∀ r ∈ c4Ex, r.iso2 ∈ [CellVal.vstr "US"]
          → r ∈ applySelection c4Ex [CellVal.vstr "US"])
      ∧ applySelection c4Ex (c4Ex.map (fun r => r.iso2)) = c4Ex) :=
  ⟨by decide, c4 c4Ex [CellVal.vstr "US"] (by decide)⟩

/-- Claim C5: the trigger choice uses only one payload per cycle: with
the scatter payload present the bar payload is ignored entirely, and
with both absent the cycle proceeds with no selection, rendering the
full table. -/
theorem c5 :
    (∀ (table : List ObsRow) (p : Payload) (click_bar : Option Payload),
        update_figures table (some p) click_bar
          = update_figures table (some p) none)
    ∧ (∀ table : List ObsRow,
        update_figures table none none = .ok (table, barData table)) :=
  ⟨fun _ _ _ => rfl, fun _ => rfl⟩

/-- Claim C3: `normalize` branches on the type of the first row's
country cell for the whole table.  In the dict branch every output row's
`iso2` comes from the dict's `id` and its `country_name` from the dict's
`value`; in the flat branch both columns are verbatim copies of each
row's own country cell (so for a flat string both equal that string);
in either branch the date is parsed to an integer year and the data
columns are renamed per the indicator mapping. -/
theorem c3 (r0 : RawRow) (rest : List RawRow) (out : List ObsRow)
    (hok : normalize (r0 :: rest) = .ok out) :
    (∀ i0 v0, r0.country = .cdict i0 v0 →
      List.Forall₂
        (fun r o => ∃ i v, r.country = .cdict i v
          ∧ o.iso2 = optToCell i ∧ o.country_name = optToCell v)
        (r0 :: rest) out)
    ∧ (∀ s0, r0.country = .cstr s0 →
      List.Forall₂
        (fun r o => o.iso2 = r.country.toCell ∧ o.country_name = r.country.toCell)
        (r0 :: rest) out)
    ∧ List.Forall₂
        (fun r o => some o.year = parseYear r.date ∧ o.data = renameData r.data)
        (r0 :: rest) out := by
  cases hc : r0.country with
  | cdict d1 d2 =>
    simp only [normalize, hc] at hok
    have hf := mapExcept_ok_forall₂ hok
    refine ⟨?_, ?_, ?_⟩
    · intro i0 v0 _
      refine hf.imp (fun a b hab => ?_)
      obtain ⟨i, v, h1, h2, h3, _, _⟩ := normalizeRowDict_ok hab
      exact ⟨i, v, h1, h2, h3⟩
    · intro s0 hs
      exact absurd hs (by simp)
    · refine hf.imp (fun a b hab => ?_)
      obtain ⟨_, _, _, _, _, h4, h5⟩ := normalizeRowDict_ok hab
      exact ⟨h4, h5⟩
  | cstr s =>
    simp only [normalize, hc] at hok
    have hf := mapExcept_ok_forall₂ hok
    refine ⟨?_, ?_, ?_⟩
    · intro i0 v0 hs
      exact absurd hs (by simp)
    · intro s0 _
      refine hf.imp (fun a b hab => ?_)
      obtain ⟨h1, h2, _, _⟩ := normalizeRowStr_ok hab
      exact ⟨h1, h2⟩
    · refine hf.imp (fun a b hab => ?_)
      obtain ⟨_, _, h3, h4⟩ := normalizeRowStr_ok hab
      exact ⟨h3, h4⟩

/-- Witness for C3: the dict-branch and year/rename conclusions at a
concrete one-row raw table. -/
theorem c3_witness :
    normalize c3Ex = .ok c3ExOut
    ∧ List.Forall₂
        (fun r o => ∃ i v, r.country = .cdict i v
          ∧ o.iso2 = optToCell i ∧ o.country_name = optToCell v)
        c3Ex c3ExOut
    ∧ List.Forall₂
        (fun r o => some o.year = parseYear r.date ∧ o.data = renameData r.data)
        c3Ex c3ExOut := by
  have hok : normalize c3Ex = .ok c3ExOut := by decide
  refine ⟨hok, ?_, ?_⟩
  · exact (c3 _ [] c3ExOut hok).1 (some "US") (some "United States") (by decide)
  · exact (c3 _ [] c3ExOut hok).2.2

/-- Counterexample to C6 as stated: with 16 rows in the end year of
which only one has a present clean-water value, the bar data has
`min 15 16 = 15` rows — the `head(15)` is taken after a sort that keeps
the missing-value rows (pandas places NaN last; it does not drop them),
not `min 15 1 = 1` as the claim's count of non-missing values demands. -/
theorem c6_counterexample :
    (barData c6Ex).length = 15
    ∧ ((c6Ex.filter (fun r => r.year == end_year)).countP
        (fun r => (getCell r.data waterLabel).isSome)) = 1
    ∧ (barData c6Ex).length
        ≠ min 15 ((c6Ex.filter (fun r => r.year == end_year)).countP
            (fun r => (getCell r.data waterLabel).isSome)) :=
  ⟨by decide, by decide, by decide⟩

/-- Claim C6 (amended): for every (possibly filtered) observation table
the bar chart's data contains exactly `min 15 n` rows where `n` is the
number of rows in the end-year slice (rows with a missing clean-water
value included), and the rows are sorted non-increasing by the
clean-water value with missing values ranking below all present ones
(hence placed last, as pandas does with NaN). -/
theorem c6_amended (dff : List ObsRow) :
    (barData dff).length
        = min 15 (dff.filter (fun r => r.year == end_year)).length
    ∧ (barData dff).Pairwise barOrd := by
  constructor
  · rw [barData, List.length_take, length_sortBars, List.length_map]
  · exact List.Pairwise.sublist (List.take_sublist _ _) (pairwise_sortBars _)

/-- Counterexample to C8 as stated: a click payload whose single point
carries no custom data does not fall back to the unfiltered render — the
extraction `pt['customdata'][0]` raises, so the update cycle errors
instead of producing the initial charts. -/
theorem c8_counterexample :
    update_figures c8Ex (some ⟨[⟨[]⟩]⟩) none = .error .indexError
    ∧ update_figures c8Ex (some ⟨[⟨[]⟩]⟩) none ≠ update_figures c8Ex none none :=
  ⟨rfl, by decide⟩

/-- Claim C8 (amended): whenever the selection extracted from a click
payload is empty — in particular for a payload whose points list is
empty — the update cycle uses the full, unfiltered table and produces
charts identical to the initial unfiltered render, whichever chart the
payload came from; a clicked point carrying no custom data is not such a
case: there the extraction raises an `IndexError` instead. -/
theorem c8_amended (table : List ObsRow) (p : Payload)
    (h : extractSelection p = .ok []) :
    update_figures table (some p) none = update_figures table none none
    ∧ update_figures table none (some p) = update_figures table none none := by
  constructor <;> simp [update_figures, pickSelection, h]

/-- Witness for C8 (amended) at an empty-points payload. -/
theorem c8_amended_witness :
    extractSelection ⟨[]⟩ = .ok []
    ∧ (update_figures c8Ex (some ⟨[]⟩) none = update_figures c8Ex none none
      ∧ update_figures c8Ex none (some ⟨[]⟩) = update_figures c8Ex none none) :=
  ⟨rfl, c8_amended c8Ex ⟨[]⟩ rfl⟩

/-- Claim C9: the observation table produced by normalization has unique
`(country_code, year)` pairs, provided the raw table is keyed by
`(country, date)` as the upstream source delivers it, distinct dates
parse to distinct years (World Bank yearly data), and distinct country
cells are assigned distinct code cells by the active branch. -/
theorem c9 (r0 : RawRow) (rest : List RawRow) (out : List ObsRow)
    (hok : normalize (r0 :: rest) = .ok out)
    (hkey : (r0 :: rest).Pairwise
        (fun a b => a.country ≠ b.country ∨ a.date ≠ b.date))
    (hdate : ∀ a ∈ r0 :: rest, ∀ b ∈ r0 :: rest,
        parseYear a.date = parseYear b.date → a.date = b.date)
    (hcode : ∀ a ∈ r0 :: rest, ∀ b ∈ r0 :: rest,
        codeInBranch r0.country a.country = codeInBranch r0.country b.country →
          a.country = b.country) :
    out.Pairwise (fun x y => x.iso2 ≠ y.iso2 ∨ x.year ≠ y.year) := by
  cases hc : r0.country with
  | cdict d1 d2 =>
    simp only [normalize, hc] at hok
    refine forall₂_pairwise (mapExcept_ok_forall₂ hok) hkey ?_
    intro a ha a2 ha2 b b2 hab hab2 hP
    obtain ⟨i, v, hci, hiso, _, hyr, _⟩ := normalizeRowDict_ok hab
    obtain ⟨i2, v2, hci2, hiso2, _, hyr2, _⟩ := normalizeRowDict_ok hab2
    by_contra hq
    push_neg at hq
    obtain ⟨hq1, hq2⟩ := hq
    have hcountry : a.country = a2.country := by
      apply hcode a ha a2 ha2
      rw [hc, hci, hci2]
      simp only [codeInBranch]
      rw [← hiso, ← hiso2, hq1]
    have hdates : a.date = a2.date := by
      apply hdate a ha a2 ha2
      rw [← hyr, ← hyr2, hq2]
    rcases hP with h | h
    · exact h hcountry
    · exact h hdates
  | cstr s =>
    simp only [normalize, hc] at hok
    refine forall₂_pairwise (mapExcept_ok_forall₂ hok) hkey ?_
    intro a ha a2 ha2 b b2 hab hab2 hP
    obtain ⟨hiso, _, hyr, _⟩ := normalizeRowStr_ok hab
    obtain ⟨hiso2, _, hyr2, _⟩ := normalizeRowStr_ok hab2
    by_contra hq
    push_neg at hq
    obtain ⟨hq1, hq2⟩ := hq
    have hcountry : a.country = a2.country := by
      apply hcode a ha a2 ha2
      rw [hc]
      simp only [codeInBranch]
      rw [← hiso, ← hiso2, hq1]
    have hdates : a.date = a2.date := by
      apply hdate a ha a2 ha2
      rw [← hyr, ← hyr2, hq2]
    rcases hP with h | h
    · exact h hcountry
    · exact h hdates

/-- Witness for C9 at a concrete two-row raw table in the dict shape. -/
theorem c9_witness :
    normalize (c9r0 :: [c9r1]) = .ok c9Out
    ∧ (c9r0 :: [c9r1]).Pairwise
        (fun a b => a.country ≠ b.country ∨ a.date ≠ b.date)
    ∧ (∀ a ∈ c9r0 :: [c9r1], ∀ b ∈ c9r0 :: [c9r1],
        parseYear a.date = parseYear b.date → a.date = b.date)
    ∧ (∀ a ∈ c9r0 :: [c9r1], ∀ b ∈ c9r0 :: [c9r1],
        codeInBranch c9r0.country a.country = codeInBranch c9r0.country b.country
          → a.country = b.country)
    ∧ c9Out.Pairwise (fun x y => x.iso2 ≠ y.iso2 ∨ x.year ≠ y.year) :=
  ⟨by decide, by decide, by decide, by decide,
    c9 c9r0 [c9r1] c9Out (by decide) (by decide) (by decide) (by decide)⟩

/-- Claim C10: normalization of an empty raw table fails with the
`KeyError` raised by the `df.loc[0, 'country']` shape probe, so startup
aborts on an empty dataset (for example when the cache holds an empty
blob). -/
theorem c10 :
    normalize ([] : List RawRow) = .error .keyError
    ∧ ∀ upstream : Request → List RawRow,
        normalize ((load upstream (some [])).1) = .error .keyError :=
  ⟨rfl, fun _ => rfl⟩

end Dashboard
